import Mathlib

/-!
Shallow embedding of the AI-generated-Newsletter pipeline
(src/utils/news_extraction.py, src/utils/news_deduplication.py,
src/utils/newsletter/categorization.py, src/utils/newsletter/fallback.py,
src/utils/newsletter/sanitization.py) together with proofs about the
claims of its specification.

Modelling conventions:
* LLM calls (`call_gemini_sdk`) are oracles passed as explicit function
  parameters returning `Except Unit _`; a raised exception is `Except.error ()`.
* Python dicts flowing through the pipeline are structures; a key that a
  given stage may leave absent is an `Option` field (`none` = key absent).
* Wall-clock values (`time.time`, `datetime.now`) are explicit parameters;
  timestamps use `ℚ` so comparisons stay decidable.
* Thread pools: each worker computes a pure function of its input; the
  nondeterministic `as_completed` order is an explicit permutation
  parameter of the submitted payloads.
-/

namespace NewsletterPipeline

/-- An email dict as produced by `get_email_content` in
src/utils/email_processing.py: all of these keys are always set there. -/
structure Email where
  id : String
  subject : String
  sender : String
  date : String
  body : String
  account : String
  deriving Repr, DecidableEq

/-- Pydantic `NewsClassificationResult` (src/utils/models.py). -/
structure NewsClassificationResult where
  is_news : Bool
  confidence : String
  reason : String
  primary_category : Option String
  secondary_categories : List String
  deriving Repr, DecidableEq

/-- Pydantic `NewsItem` (src/utils/models.py): one extracted news item. -/
structure NewsItem where
  title : String
  summary : String
  main_topic : String
  source_urls : List String
  key_points : List String
  deriving Repr, DecidableEq

/-- Pydantic `NewsExtractionResult` (src/utils/models.py). -/
structure NewsExtractionResult where
  items : List NewsItem
  deriving Repr, DecidableEq

/-- One entry of the `all_sources` list attached by deduplication. -/
structure SourceRef where
  subject : String
  sender : String
  date : String
  account : String
  deriving Repr, DecidableEq

/-- The plain item dict that flows between extraction, deduplication and
newsletter assembly.  Keys that only some stages attach are `Option`
fields (`none` models the key being absent from the dict). -/
structure ItemDict where
  title : String
  summary : String
  main_topic : String
  source_urls : List String
  key_points : List String
  source_email_subject : String
  source_email_sender : String
  source_email_date : String
  source_account : String
  original_email_id : String
  email_primary_category : Option String := none
  email_secondary_categories : List String := []
  email_classification_confidence : Option String := none
  email_classification_reason : Option String := none
  is_secondary_category : Bool := false
  all_sources : Option (List SourceRef) := none
  source_accounts : Option (List String) := none
  group_type : Option String := none
  original_count : Option Nat := none
  deriving Repr, DecidableEq

/-- A classified news email: the `\x7b"email": ..., "classification": ...\x7d`
dicts handed to `extract_individual_news_items`. -/
structure NewsEmail where
  email : Email
  classification : Option NewsClassificationResult
  deriving Repr, DecidableEq

/-- Result of one `call_gemini_sdk` extraction call: an exception, a falsy
result, or a parsed `NewsExtractionResult`. -/
abbrev ExtractOracle := Nat → Except Unit (Option NewsExtractionResult)

/-- The dict built for each successfully extracted item inside
`_extract_single_email` (src/utils/news_extraction.py lines 235-258). -/
def prepareItem (e : Email) (classification : Option NewsClassificationResult)
    (it : NewsItem) : ItemDict :=
  { title := it.title
    summary := it.summary
    main_topic := it.main_topic
    source_urls := it.source_urls
    key_points := it.key_points
    source_email_subject := e.subject
    source_email_sender := e.sender
    source_email_date := e.date
    source_account := e.account
    original_email_id := e.id
    email_primary_category := classification.bind (·.primary_category)
    email_secondary_categories :=
      (classification.map (·.secondary_categories)).getD []
    email_classification_confidence := classification.map (·.confidence)
    email_classification_reason := classification.map (·.reason) }

/-- The fallback dict built when the extraction call raises
(src/utils/news_extraction.py lines 262-292). -/
def fallbackItem (e : Email) (classification : Option NewsClassificationResult) :
    ItemDict :=
  { title := e.subject
    summary := if e.body.length > 500 then e.body.take 500 ++ "..." else e.body
    main_topic := "General"
    source_urls := []
    key_points := ["Content from email body"]
    source_email_subject := e.subject
    source_email_sender := e.sender
    source_email_date := e.date
    source_account := e.account
    original_email_id := e.id
    email_primary_category := classification.bind (·.primary_category)
    email_secondary_categories :=
      (classification.map (·.secondary_categories)).getD []
    email_classification_confidence := classification.map (·.confidence)
    email_classification_reason := classification.map (·.reason) }

/-- `_extract_single_email` (src/utils/news_extraction.py lines 199-295).
The worker receives `(news_email, index, total, monitor)` and returns
`(index, prepared_items)`; every exception from the oracle is caught and
turned into exactly one fallback item, so the function is total. -/
def extractSingleEmail (oracle : ExtractOracle) (ne : NewsEmail) (index : Nat) :
    Nat × List ItemDict :=
  (index,
    match oracle index with
    | .error _ => [fallbackItem ne.email ne.classification]
    | .ok none => []
    | .ok (some extraction_result) =>
        extraction_result.items.map (prepareItem ne.email ne.classification))

/-- `_extract_news_items_sequential` (src/utils/news_extraction.py lines
298-321): emails are processed in input order with 1-based indices and the
per-email result lists are concatenated. -/
def extractNewsItemsSequential (oracle : ExtractOracle)
    (news_emails : List NewsEmail) : List ItemDict :=
  news_emails.enum.flatMap fun p => (extractSingleEmail oracle p.2 (p.1 + 1)).2

/-- Comparator used when merging parallel extraction results: Python's
`sorted(all_results, key=lambda entry: entry[0])`. -/
def keyLE (a b : Nat × List ItemDict) : Prop := a.1 ≤ b.1

instance : DecidableRel keyLE := fun a b => Nat.decLe a.1 b.1

instance : IsTotal (Nat × List ItemDict) keyLE :=
  ⟨fun a b => Nat.le_total a.1 b.1⟩

instance : IsTrans (Nat × List ItemDict) keyLE :=
  ⟨fun _ _ _ h1 h2 => Nat.le_trans h1 h2⟩

/-- `extract_individual_news_items` (src/utils/news_extraction.py lines
324-390).  `completion` is the order in which `as_completed` yields the
submitted `(index, email)` payloads; the caller promises it is a
permutation of `news_emails.enum`.  Collected results are sorted by their
original 1-based index and flattened. -/
def extract_individual_news_items (enable_parallel : Bool)
    (oracle : ExtractOracle) (news_emails : List NewsEmail)
    (completion : List (Nat × NewsEmail)) : List ItemDict :=
  if news_emails.isEmpty then []
  else if !enable_parallel then extractNewsItemsSequential oracle news_emails
  else
    let all_results :=
      completion.map fun p => extractSingleEmail oracle p.2 (p.1 + 1)
    (List.insertionSort keyLE all_results).flatMap Prod.snd

/-- Strict version of the merge comparator, used to show the sorted merge
is unique. -/
def keyLT (a b : Nat × List ItemDict) : Prop := a.1 < b.1

instance : IsAntisymm (Nat × List ItemDict) keyLT :=
  ⟨fun _ _ h1 h2 => absurd (Nat.lt_trans h1 h2) (Nat.lt_irrefl _)⟩

/-- Sorting the parallel results of any completion order by their original
index reproduces the input enumeration order. -/
lemma insertionSort_completion_eq (oracle : ExtractOracle)
    (news_emails : List NewsEmail) (completion : List (Nat × NewsEmail))
    (h : completion.Perm news_emails.enum) :
    List.insertionSort keyLE
        (completion.map fun p => extractSingleEmail oracle p.2 (p.1 + 1))
      = news_emails.enum.map fun p => extractSingleEmail oracle p.2 (p.1 + 1) := by
  set g : Nat × NewsEmail → Nat × List ItemDict :=
    fun p => extractSingleEmail oracle p.2 (p.1 + 1) with hg
  have hperm : (List.insertionSort keyLE (completion.map g)).Perm
      (news_emails.enum.map g) :=
    (List.perm_insertionSort keyLE (completion.map g)).trans (h.map g)
  have hfst : ∀ p : Nat × NewsEmail, (g p).1 = p.1 + 1 := fun _ => rfl
  have henum : List.Pairwise (fun p q : Nat × NewsEmail => p.1 < q.1)
      news_emails.enum := by
    have h1 : List.Pairwise (· < ·) (news_emails.enum.map Prod.fst) := by
      rw [List.enum_map_fst]
      exact List.pairwise_lt_range _
    exact List.pairwise_map.mp h1
  have hsortedB : List.Pairwise keyLT (news_emails.enum.map g) := by
    refine List.pairwise_map.mpr (henum.imp ?_)
    intro a b hab
    simpa [keyLT, hfst] using Nat.succ_lt_succ hab
  have hsortedA : List.Pairwise keyLT
      (List.insertionSort keyLE (completion.map g)) := by
    have hle : List.Pairwise keyLE
        (List.insertionSort keyLE (completion.map g)) :=
      List.sorted_insertionSort keyLE (completion.map g)
    have hnodupB : ((news_emails.enum.map g).map Prod.fst).Nodup := by
      have : (news_emails.enum.map g).map Prod.fst
          = (news_emails.enum.map Prod.fst).map (· + 1) := by
        rw [List.map_map, List.map_map]
        exact List.map_congr_left fun p _ => hfst p
      rw [this, List.enum_map_fst]
      exact (List.nodup_range _).map fun a b h => Nat.succ_injective h
    have hnodupA : ((List.insertionSort keyLE (completion.map g)).map
        Prod.fst).Nodup := (hperm.map Prod.fst).nodup_iff.mpr hnodupB
    have hne : List.Pairwise (fun a b : Nat × List ItemDict => a.1 ≠ b.1)
        (List.insertionSort keyLE (completion.map g)) :=
      List.pairwise_map.mp hnodupA
    exact (hle.and hne).imp fun hab => Nat.lt_of_le_of_ne hab.1 hab.2
  exact List.eq_of_perm_of_sorted hperm hsortedA hsortedB

/-- Shared helper: the parallel extraction path coincides with the
sequential one for every completion order. -/
lemma extract_eq_sequential_aux (enable_parallel : Bool)
    (oracle : ExtractOracle) (news_emails : List NewsEmail)
    (completion : List (Nat × NewsEmail))
    (h : completion.Perm news_emails.enum) :
    extract_individual_news_items enable_parallel oracle news_emails completion
      = extractNewsItemsSequential oracle news_emails := by
  unfold extract_individual_news_items
  by_cases hemp : news_emails.isEmpty
  · have : news_emails = [] := List.isEmpty_iff.mp hemp
    subst this
    simp [extractNewsItemsSequential]
  · simp only [hemp, Bool.false_eq_true, if_false]
    cases enable_parallel
    · simp
    · simp only [Bool.not_true, Bool.false_eq_true, if_false]
      rw [insertionSort_completion_eq oracle news_emails completion h]
      rw [extractNewsItemsSequential, List.flatMap_map]

/-- C1: for every completion order of the parallel workers the merged
output of `extract_individual_news_items` is reassembled by original input
index and equals the output of `_extract_news_items_sequential`. -/
theorem extract_parallel_eq_sequential (enable_parallel : Bool)
    (oracle : ExtractOracle) (news_emails : List NewsEmail)
    (completion : List (Nat × NewsEmail))
    (h : completion.Perm news_emails.enum) :
    extract_individual_news_items enable_parallel oracle news_emails completion
      = extractNewsItemsSequential oracle news_emails :=
  extract_eq_sequential_aux enable_parallel oracle news_emails completion h

/-- Concrete emails used to instantiate theorems with hypotheses. -/
def wEmailA : Email :=
  { id := "id-1", subject := "Subject A", sender := "a@example.com"
    date := "Mon", body := "Body A", account := "acct1" }

/-- Second concrete email. -/
def wEmailB : Email :=
  { id := "id-2", subject := "Subject B", sender := "b@example.com"
    date := "Tue", body := "Body B", account := "acct2" }

/-- Concrete classified news emails. -/
def wNewsA : NewsEmail := { email := wEmailA, classification := none }

/-- Second concrete classified news email. -/
def wNewsB : NewsEmail := { email := wEmailB, classification := none }

/-- Oracle that always raises, used in witnesses. -/
def failingOracle : ExtractOracle := fun _ => Except.error ()

/-- Witness for `extract_parallel_eq_sequential`: a two-email batch whose
workers complete in reverse order still merges back in input order. -/
theorem extract_parallel_eq_sequential_witness :
    extract_individual_news_items true failingOracle [wNewsA, wNewsB]
        [(1, wNewsB), (0, wNewsA)]
      = extractNewsItemsSequential failingOracle [wNewsA, wNewsB] :=
  extract_parallel_eq_sequential true failingOracle [wNewsA, wNewsB]
    [(1, wNewsB), (0, wNewsA)] (by decide)

/-- Every single-email extraction yields at least one item when each
successful oracle call carries at least one extracted item. -/
lemma one_le_extractSingleEmail_length (oracle : ExtractOracle)
    (hsucc : ∀ i r, oracle i = Except.ok r →
      ∃ l, r = some l ∧ l.items ≠ []) (ne : NewsEmail) (index : Nat) :
    1 ≤ (extractSingleEmail oracle ne index).2.length := by
  rcases ho : oracle index with e | r
  · simp [extractSingleEmail, ho]
  · obtain ⟨l, rfl, hne⟩ := hsucc index r ho
    simpa [extractSingleEmail, ho] using List.length_pos.mpr hne

/-- The sequential extraction produces at least one item per email. -/
lemma sequential_length_ge (oracle : ExtractOracle)
    (hsucc : ∀ i r, oracle i = Except.ok r →
      ∃ l, r = some l ∧ l.items ≠ []) (news_emails : List NewsEmail) :
    news_emails.length ≤ (extractNewsItemsSequential oracle news_emails).length := by
  suffices h : ∀ (l : List NewsEmail) (k : Nat),
      l.length ≤ ((l.enumFrom k).flatMap
        fun p => (extractSingleEmail oracle p.2 (p.1 + 1)).2).length by
    exact h news_emails 0
  intro l
  induction l with
  | nil => simp
  | cons a t ih =>
      intro k
      simp only [List.enumFrom_cons, List.flatMap_cons, List.length_append,
        List.length_cons]
      have h1 := one_le_extractSingleEmail_length oracle hsucc a (k + 1)
      have h2 := ih (k + 1)
      omega

/-- C2 (amended): with a failing oracle no exception escapes the stage;
each failing email contributes exactly one fallback item whose title is
the subject, whose summary is the body truncated to 500 characters with a
"..." marker, whose topic is "General", whose source-URL list is empty,
whose key-point list is the single placeholder "Content from email body",
and whose provenance is copied; the total item count is at least the
number of input emails whenever every succeeding call has an item. -/
theorem extraction_failure_fallback (enable_parallel : Bool)
    (oracle : ExtractOracle) (news_emails : List NewsEmail)
    (completion : List (Nat × NewsEmail))
    (hperm : completion.Perm news_emails.enum)
    (hsucc : ∀ i r, oracle i = Except.ok r →
      ∃ l, r = some l ∧ l.items ≠ []) :
    news_emails.length ≤
        (extract_individual_news_items enable_parallel oracle news_emails
          completion).length
    ∧ (∀ ne index, oracle index = Except.error () →
        (extractSingleEmail oracle ne index).2
          = [fallbackItem ne.email ne.classification])
    ∧ (∀ e cls, (fallbackItem e cls).title = e.subject
        ∧ (fallbackItem e cls).summary
            = (if e.body.length > 500 then e.body.take 500 ++ "..." else e.body)
        ∧ (fallbackItem e cls).main_topic = "General"
        ∧ (fallbackItem e cls).source_urls = []
        ∧ (fallbackItem e cls).key_points = ["Content from email body"]
        ∧ (fallbackItem e cls).source_email_subject = e.subject
        ∧ (fallbackItem e cls).source_email_sender = e.sender
        ∧ (fallbackItem e cls).source_email_date = e.date
        ∧ (fallbackItem e cls).source_account = e.account
        ∧ (fallbackItem e cls).original_email_id = e.id) := by
  refine ⟨?_, ?_, ?_⟩
  · rw [extract_eq_sequential_aux enable_parallel oracle news_emails completion
      hperm]
    exact sequential_length_ge oracle hsucc news_emails
  · intro ne index ho
    simp [extractSingleEmail, ho]
  · intro e cls
    exact ⟨rfl, rfl, rfl, rfl, rfl, rfl, rfl, rfl, rfl, rfl⟩

/-- Witness for `extraction_failure_fallback` at a concrete input. -/
theorem extraction_failure_fallback_witness :
    (2 : Nat) ≤
        (extract_individual_news_items true failingOracle [wNewsA, wNewsB]
          [(1, wNewsB), (0, wNewsA)]).length
    ∧ (∀ ne index, failingOracle index = Except.error () →
        (extractSingleEmail failingOracle ne index).2
          = [fallbackItem ne.email ne.classification])
    ∧ (∀ e cls, (fallbackItem e cls).title = e.subject
        ∧ (fallbackItem e cls).summary
            = (if e.body.length > 500 then e.body.take 500 ++ "..." else e.body)
        ∧ (fallbackItem e cls).main_topic = "General"
        ∧ (fallbackItem e cls).source_urls = []
        ∧ (fallbackItem e cls).key_points = ["Content from email body"]
        ∧ (fallbackItem e cls).source_email_subject = e.subject
        ∧ (fallbackItem e cls).source_email_sender = e.sender
        ∧ (fallbackItem e cls).source_email_date = e.date
        ∧ (fallbackItem e cls).source_account = e.account
        ∧ (fallbackItem e cls).original_email_id = e.id) :=
  extraction_failure_fallback true failingOracle [wNewsA, wNewsB]
    [(1, wNewsB), (0, wNewsA)] (by decide)
    (fun i r h => by simp [failingOracle] at h)

/-- Counterexample for C2 as stated: the fallback item's key-point list is
the singleton placeholder, not the empty list the claim demands. -/
theorem extraction_fallback_key_points_nonempty :
    (extractSingleEmail failingOracle wNewsA 1).2 = [fallbackItem wEmailA none]
    ∧ (fallbackItem wEmailA none).key_points = ["Content from email body"]
    ∧ (fallbackItem wEmailA none).key_points ≠ ([] : List String) := by
  refine ⟨rfl, rfl, ?_⟩
  simp [fallbackItem]

/-- `GeminiRateLimiter` (src/utils/news_extraction.py lines 27-47):
`max_requests` and the recorded request timestamps.  Timestamps are
rationals standing for `time.time()` values. -/
structure GeminiRateLimiter where
  max_requests : Nat
  requests : List ℚ
  deriving Repr, DecidableEq

/-- `GeminiRateLimiter._prune`: drop every timestamp at least 60 seconds
old at time `now`. -/
def GeminiRateLimiter.prune (l : GeminiRateLimiter) (now : ℚ) :
    GeminiRateLimiter :=
  { l with requests := l.requests.filter fun t => now - t < 60 }

/-- `GeminiRateLimiter.acquire`: prune, then append `now` and return true
when the window still has room, else return false.  The two `time.time()`
reads of the source happen under one lock and are modelled as the single
instant `now`. -/
def GeminiRateLimiter.acquire (l : GeminiRateLimiter) (now : ℚ) :
    Bool × GeminiRateLimiter :=
  let pruned := l.prune now
  if pruned.requests.length < l.max_requests then
    (true, { pruned with requests := pruned.requests ++ [now] })
  else
    (false, pruned)

/-- C5: on every reachable limiter state (at most `max_requests` recorded
timestamps), `acquire` returns true and appends a timestamp exactly when
fewer than `max_requests` timestamps fall inside the trailing 60-second
window; on false it leaves the state unchanged; and the state bound is
preserved, so it holds on every state the limiter can reach. -/
theorem acquire_spec (l : GeminiRateLimiter) (now : ℚ)
    (hinv : l.requests.length ≤ l.max_requests) :
    ((l.acquire now).1 = true ↔
      (l.requests.filter fun t => now - t < 60).length < l.max_requests)
    ∧ ((l.acquire now).1 = true →
        (l.acquire now).2.requests
          = (l.requests.filter fun t => now - t < 60) ++ [now])
    ∧ ((l.acquire now).1 = false → (l.acquire now).2 = l)
    ∧ (l.acquire now).2.requests.length ≤ l.max_requests := by
  by_cases h : (l.requests.filter fun t => now - t < 60).length < l.max_requests
  · refine ⟨⟨fun _ => h, fun _ => ?_⟩, fun _ => ?_, fun hfalse => ?_, ?_⟩
    · simp [GeminiRateLimiter.acquire, GeminiRateLimiter.prune, h]
    · simp [GeminiRateLimiter.acquire, GeminiRateLimiter.prune, h]
    · simp [GeminiRateLimiter.acquire, GeminiRateLimiter.prune, h] at hfalse
    · simp only [GeminiRateLimiter.acquire, GeminiRateLimiter.prune, h,
        if_true, List.length_append, List.length_cons, List.length_nil]
      omega
  · have hkeep : (l.requests.filter fun t => now - t < 60) = l.requests := by
      have hle := List.length_filter_le (fun t => decide (now - t < 60))
        l.requests
      have hlen : (l.requests.filter fun t => now - t < 60).length
          = l.requests.length := by omega
      exact List.filter_eq_self.mpr (List.filter_length_eq_length.mp hlen)
    have h' : ¬ l.requests.length < l.max_requests := by
      rw [← hkeep]; exact h
    refine ⟨⟨fun htrue => ?_, fun hc => absurd hc h⟩, fun htrue => ?_,
      fun _ => ?_, ?_⟩
    · simp [GeminiRateLimiter.acquire, GeminiRateLimiter.prune, hkeep, h']
        at htrue
    · simp [GeminiRateLimiter.acquire, GeminiRateLimiter.prune, hkeep, h']
        at htrue
    · simp [GeminiRateLimiter.acquire, GeminiRateLimiter.prune, hkeep, h']
    · simp only [GeminiRateLimiter.acquire, GeminiRateLimiter.prune, hkeep,
        h', if_false]
      exact hinv

/-- Witness for `acquire_spec`: a limiter with one stale timestamp and
room for one request grants the call. -/
theorem acquire_spec_witness :
    ((GeminiRateLimiter.acquire ⟨1, [0]⟩ 100).1 = true ↔
      (([0] : List ℚ).filter fun t => (100 : ℚ) - t < 60).length < 1)
    ∧ ((GeminiRateLimiter.acquire ⟨1, [0]⟩ 100).1 = true →
        (GeminiRateLimiter.acquire ⟨1, [0]⟩ 100).2.requests
          = (([0] : List ℚ).filter fun t => (100 : ℚ) - t < 60) ++ [100])
    ∧ ((GeminiRateLimiter.acquire ⟨1, [0]⟩ 100).1 = false →
        (GeminiRateLimiter.acquire ⟨1, [0]⟩ 100).2 = ⟨1, [0]⟩)
    ∧ (GeminiRateLimiter.acquire ⟨1, [0]⟩ 100).2.requests.length ≤ 1 :=
  acquire_spec ⟨1, [0]⟩ 100 (by decide)

/-- Pydantic `NewsGroup` (src/utils/models.py): one similarity group
returned by the deduplication oracle. -/
structure NewsGroup where
  type : String
  item_ids : List Int
  group_title : String
  group_summary : String
  deriving Repr, DecidableEq

/-- A bucket entry of `categorize_news_items`: the item dict together with
the `original_index` key that stage adds and deduplication later deletes. -/
structure CatItem where
  item : ItemDict
  original_index : Int
  deriving Repr, DecidableEq

/-- Deduplication oracle: category name and attempt number to the parsed
`DeduplicationResult.groups`; `ok none` models a falsy result or a missing
`groups` list (which raises `ValueError` and is retried). -/
abbrev DedupOracle := String → Nat → Except Unit (Option (List NewsGroup))

/-- First attempt (out of `[0, 1, 2]`, the three retries of
`deduplicate_category_items`) that returns usable groups. -/
def firstValidGroups (f : Nat → Except Unit (Option (List NewsGroup))) :
    List Nat → Option (List NewsGroup)
  | [] => none
  | n :: rest =>
    match f n with
    | .ok (some gs) => some gs
    | _ => firstValidGroups f rest

/-- The `all_sources` entry built from one original item. -/
def sourceRefOf (ci : CatItem) : SourceRef :=
  { subject := ci.item.source_email_subject
    sender := ci.item.source_email_sender
    date := ci.item.source_email_date
    account := ci.item.source_account }

/-- `next(item for item in category_items if item["original_index"] ==
item_id)`: the first bucket item carrying the id, if any. -/
def findByIndex (category_items : List CatItem) (item_id : Int) :
    Option CatItem :=
  category_items.find? fun it => it.original_index == item_id

/-- All-or-nothing lookup of a group's member ids; `none` when some lookup
raises `StopIteration`, aborting the whole bucket. -/
def findAllByIndex (category_items : List CatItem) :
    List Int → Option (List CatItem)
  | [] => some []
  | item_id :: rest =>
    match findByIndex category_items item_id, findAllByIndex category_items rest with
    | some it, some its => some (it :: its)
    | _, _ => none

/-- Python `list(set(...))`: duplicates removed; the set's iteration order
is modelled as first-occurrence order. -/
def pySet (l : List String) : List String := l.eraseDups

/-- The consolidated dict built for one accepted group
(src/utils/news_deduplication.py lines 196-229); `none` when a member id
has no bucket item (`StopIteration`) or the group is empty
(`original_items[0]` raises `IndexError`). -/
def mergeGroup (category_items : List CatItem) (g : NewsGroup) :
    Option ItemDict :=
  match findAllByIndex category_items g.item_ids with
  | none => none
  | some [] => none
  | some (first :: rest) =>
    let original_items := first :: rest
    some
      { title := g.group_title
        summary := g.group_summary
        main_topic := first.item.main_topic
        source_urls := pySet (original_items.flatMap (·.item.source_urls))
        key_points := []
        source_email_subject := ""
        source_email_sender := ""
        source_email_date := ""
        source_account := ""
        original_email_id := ""
        all_sources := some (original_items.map sourceRefOf)
        source_accounts := some (pySet (original_items.map (·.item.source_account)))
        group_type := some g.type
        original_count := some g.item_ids.length }

/-- The group loop of `deduplicate_category_items` (lines 185-229): groups
touching an already-processed id are skipped whole, accepted groups mark
their ids processed; `none` when assembling some group raises. -/
def processGroups (category_items : List CatItem) :
    List NewsGroup → List Int → Option (List ItemDict × List Int)
  | [], processed => some ([], processed)
  | g :: rest, processed =>
    if g.item_ids.any fun item_id => processed.contains item_id then
      processGroups category_items rest processed
    else
      match mergeGroup category_items g with
      | none => none
      | some consolidated =>
        match processGroups category_items rest (processed ++ g.item_ids) with
        | none => none
        | some (out, final) => some (consolidated :: out, final)

/-- The singleton dict built for an unclaimed or fallback item
(lines 231-250 and 258-277): `original_index` deleted, provenance wrapped,
`group_type = "unique"`, `original_count = 1`. -/
def singletonOf (ci : CatItem) : ItemDict :=
  { ci.item with
      all_sources := some [sourceRefOf ci]
      source_accounts := some [ci.item.source_account]
      group_type := some "unique"
      original_count := some 1 }

/-- `deduplicate_category_items` (src/utils/news_deduplication.py lines
108-279): three oracle attempts; on success the groups are assembled and
unclaimed items appended as singletons; any failure (all attempts spent,
or an exception while assembling) degrades the whole bucket to
singletons. -/
def deduplicate_category_items (oracle : Nat → Except Unit (Option (List NewsGroup)))
    (category_items : List CatItem) : List ItemDict :=
  match firstValidGroups oracle [0, 1, 2] with
  | none => category_items.map singletonOf
  | some groups =>
    match processGroups category_items groups [] with
    | none => category_items.map singletonOf
    | some (deduplicated_items, processed_ids) =>
      deduplicated_items ++
        (category_items.filter fun it =>
          !(processed_ids.contains it.original_index)).map singletonOf

/-- The fixed category buckets of `categorize_news_items`
(src/utils/news_deduplication.py lines 28-36), in dict insertion order. -/
def CATEGORY_KEYS : List String :=
  ["AI", "Economy", "Stocks", "Private Equity", "Politics", "Technology",
   "Other"]

/-- The entries that item number `i` contributes to bucket `c` inside
`categorize_news_items` (lines 41-71): primary placement for a valid LLM
category, flagged copies for matching secondary categories, and an
"Other" fallback otherwise. -/
def entriesFor (c : String) (i : Nat) (it : ItemDict) : List CatItem :=
  let categorized_item : CatItem := { item := it, original_index := (i : Int) }
  match it.email_primary_category with
  | some email_category =>
    if email_category ≠ "" ∧ email_category ∈ CATEGORY_KEYS then
      (if email_category = c then [categorized_item] else []) ++
        (it.email_secondary_categories.filter fun s =>
          s ≠ email_category ∧ s ∈ CATEGORY_KEYS ∧ s = c).map fun _ =>
            { categorized_item with
                item := { it with is_secondary_category := true } }
    else if c = "Other" then [categorized_item] else []
  | none => if c = "Other" then [categorized_item] else []

/-- Bucket of `categorize_news_items` for category `c`. -/
def bucketFor (news_items : List ItemDict) (c : String) : List CatItem :=
  news_items.enum.flatMap fun p => entriesFor c p.1 p.2

/-- The non-empty buckets submitted to the deduplication pool
(src/utils/news_deduplication.py lines 313-317). -/
def nonEmptyBuckets (news_items : List ItemDict) : List (String × List CatItem) :=
  (CATEGORY_KEYS.map fun c => (c, bucketFor news_items c)).filter
    fun p => !p.2.isEmpty

/-- `deduplicate_and_aggregate_news` (src/utils/news_deduplication.py
lines 282-355).  `completion` is the order in which `as_completed` yields
the per-category futures; the caller promises it is a permutation of
`nonEmptyBuckets news_items`.  `deduplicate_category_items` is total, so
no future raises and each category contributes its whole result list. -/
def deduplicate_and_aggregate_news (enable_parallel : Bool)
    (oracle : DedupOracle) (news_items : List ItemDict)
    (completion : List (String × List CatItem)) : List ItemDict :=
  if news_items.length ≤ 1 then news_items
  else if !enable_parallel then
    (CATEGORY_KEYS.map fun c => (c, bucketFor news_items c)).flatMap fun p =>
      if p.2.isEmpty then []
      else deduplicate_category_items (oracle p.1) p.2
  else if (nonEmptyBuckets news_items).isEmpty then news_items
  else
    completion.flatMap fun p => deduplicate_category_items (oracle p.1) p.2

/-- Total of the `original_count` keys over a result list (a missing key
counts 0). -/
def sumOriginalCounts (l : List ItemDict) : Nat :=
  (l.map fun it => it.original_count.getD 0).sum

/-- Each singleton contributes `original_count = 1`. -/
lemma sumOriginalCounts_singletons (l : List CatItem) :
    sumOriginalCounts (l.map singletonOf) = l.length := by
  induction l with
  | nil => rfl
  | cons a t ih =>
      have ha : (singletonOf a).original_count = some 1 := rfl
      simp only [sumOriginalCounts, List.map_cons, List.sum_cons, ha,
        Option.getD_some, List.length_cons]
      simp only [sumOriginalCounts] at ih
      omega

/-- `sumOriginalCounts` distributes over append. -/
lemma sumOriginalCounts_append (a b : List ItemDict) :
    sumOriginalCounts (a ++ b) = sumOriginalCounts a + sumOriginalCounts b := by
  simp [sumOriginalCounts]

/-- A successful all-member lookup certifies that every member id is the
index of some bucket item, and a successfully merged group records its
member count. -/
lemma mergeGroup_some (bucket : List CatItem) (g : NewsGroup) (m : ItemDict)
    (h : mergeGroup bucket g = some m) :
    (∀ id ∈ g.item_ids, ∃ ci ∈ bucket, ci.original_index = id)
    ∧ m.original_count = some g.item_ids.length := by
  have hfind : ∀ (ids : List Int) (its : List CatItem),
      findAllByIndex bucket ids = some its →
      ∀ id ∈ ids, ∃ ci ∈ bucket, ci.original_index = id := by
    intro ids
    induction ids with
    | nil => intro its _ id hid; cases hid
    | cons a t ih =>
        intro its hsome id hid
        unfold findAllByIndex at hsome
        rcases hfa : findByIndex bucket a with _ | ci
        · rw [hfa] at hsome; cases hsome
        · rcases hft : findAllByIndex bucket t with _ | cis
          · rw [hfa, hft] at hsome; cases hsome
          · rcases List.mem_cons.mp hid with rfl | hid
            · refine ⟨ci, List.mem_of_find?_eq_some hfa, ?_⟩
              have := List.find?_some hfa
              simpa using this
            · exact ih cis hft id hid
  unfold mergeGroup at h
  rcases hfa : findAllByIndex bucket g.item_ids with _ | its
  · rw [hfa] at h; cases h
  · rcases its with _ | ⟨first, rest⟩
    · rw [hfa] at h; cases h
    · rw [hfa] at h
      refine ⟨hfind g.item_ids (first :: rest) hfa, ?_⟩
      cases h
      rfl

/-- Invariant of the group-assembly loop: accepted groups claim pairwise
fresh ids drawn from the bucket, and the merged `original_count` totals
grow exactly with the processed-id list. -/
lemma processGroups_spec (bucket : List CatItem) (groups : List NewsGroup) :
    ∀ (processed : List Int) (out : List ItemDict) (final : List Int),
      (∀ g ∈ groups, g.item_ids.Nodup) →
      processed.Nodup →
      (∀ id ∈ processed, ∃ ci ∈ bucket, ci.original_index = id) →
      processGroups bucket groups processed = some (out, final) →
      final.Nodup
      ∧ (∀ id ∈ final, ∃ ci ∈ bucket, ci.original_index = id)
      ∧ sumOriginalCounts out + processed.length = final.length := by
  induction groups with
  | nil =>
      intro processed out final _ hpnd hpsub heq
      unfold processGroups at heq
      cases heq
      exact ⟨hpnd, hpsub, by simp [sumOriginalCounts]⟩
  | cons g rest ih =>
      intro processed out final hgnd hpnd hpsub heq
      unfold processGroups at heq
      by_cases hskip : (g.item_ids.any fun item_id => processed.contains item_id) = true
      · rw [if_pos hskip] at heq
        exact ih processed out final (fun g' hg' => hgnd g' (List.mem_cons_of_mem _ hg'))
          hpnd hpsub heq
      · rw [if_neg hskip] at heq
        rcases hm : mergeGroup bucket g with _ | m
        · rw [hm] at heq; cases heq
        · rw [hm] at heq
          rcases hrec : processGroups bucket rest (processed ++ g.item_ids)
            with _ | ⟨out', final'⟩
          · rw [hrec] at heq; cases heq
          · rw [hrec] at heq
            obtain ⟨hsub_ids, hcount⟩ := mergeGroup_some bucket g m hm
            have hdisj : processed.Disjoint g.item_ids := by
              intro a hap hag
              have : (g.item_ids.any fun item_id =>
                  processed.contains item_id) = true := by
                refine List.any_eq_true.mpr ⟨a, hag, ?_⟩
                exact List.elem_iff.mpr hap
              exact hskip this
            have hnd' : (processed ++ g.item_ids).Nodup :=
              hpnd.append (hgnd g (List.mem_cons_self g rest)) hdisj
            have hsub' : ∀ id ∈ processed ++ g.item_ids,
                ∃ ci ∈ bucket, ci.original_index = id := by
              intro id hid
              rcases List.mem_append.mp hid with hid | hid
              · exact hpsub id hid
              · exact hsub_ids id hid
            obtain ⟨hf1, hf2, hf3⟩ := ih (processed ++ g.item_ids) out' final'
              (fun g' hg' => hgnd g' (List.mem_cons_of_mem _ hg'))
              hnd' hsub' hrec
            cases heq
            refine ⟨hf1, hf2, ?_⟩
            simp only [List.length_append] at hf3
            simp only [sumOriginalCounts, List.map_cons, List.sum_cons,
              hcount, Option.getD_some]
            simp only [sumOriginalCounts] at hf3
            omega

/-- A usable group list comes from one of the attempted oracle calls. -/
lemma firstValidGroups_mem (f : Nat → Except Unit (Option (List NewsGroup))) :
    ∀ (attempts : List Nat) (gs : List NewsGroup),
      firstValidGroups f attempts = some gs →
      ∃ n ∈ attempts, f n = Except.ok (some gs) := by
  intro attempts
  induction attempts with
  | nil => intro gs h; cases h
  | cons n rest ih =>
      intro gs h
      unfold firstValidGroups at h
      rcases hf : f n with e | r
      · rw [hf] at h
        obtain ⟨m, hm, hfm⟩ := ih gs h
        exact ⟨m, List.mem_cons_of_mem _ hm, hfm⟩
      · rcases r with _ | gs'
        · rw [hf] at h
          obtain ⟨m, hm, hfm⟩ := ih gs h
          exact ⟨m, List.mem_cons_of_mem _ hm, hfm⟩
        · rw [hf] at h
          cases h
          exact ⟨n, List.mem_cons_self n rest, hf⟩

/-- With distinct bucket ids, the bucket items claimed by a duplicate-free
processed list are exactly as many as the processed ids. -/
lemma claimed_length (bucket : List CatItem) (final : List Int)
    (hb : (bucket.map (·.original_index)).Nodup) (hnd : final.Nodup)
    (hsub : ∀ id ∈ final, ∃ ci ∈ bucket, ci.original_index = id) :
    (bucket.filter fun ci => final.contains ci.original_index).length
      = final.length := by
  have h1 : (bucket.filter fun ci => final.contains ci.original_index).length
      = ((bucket.map (·.original_index)).filter fun id =>
          final.contains id).length := by
    rw [← List.countP_eq_length_filter, ← List.countP_eq_length_filter,
      List.countP_map]
    rfl
  rw [h1]
  have hperm : ((bucket.map (·.original_index)).filter fun id =>
      final.contains id).Perm final := by
    refine (List.perm_ext_iff_of_nodup (hb.filter _) hnd).mpr ?_
    intro a
    rw [List.mem_filter]
    constructor
    · rintro ⟨_, hc⟩
      exact List.elem_iff.mp hc
    · intro ha
      refine ⟨?_, List.elem_iff.mpr ha⟩
      obtain ⟨ci, hci, hidx⟩ := hsub a ha
      exact List.mem_map.mpr ⟨ci, hci, hidx⟩
  exact hperm.length_eq

/-- Splitting a list by a boolean predicate preserves its length. -/
lemma length_filter_not_add (p : CatItem → Bool) (l : List CatItem) :
    (l.filter p).length + (l.filter fun a => !p a).length = l.length := by
  induction l with
  | nil => rfl
  | cons a t ih =>
      by_cases hp : p a = true
      · simp [List.filter_cons, hp]; omega
      · have hp' : p a = false := by simpa using hp
        simp [List.filter_cons, hp']; omega

/-- C3 (amended): whenever the bucket's items carry pairwise-distinct ids
and no oracle group repeats an id inside its own member list, the
`original_count` totals of the returned list equal the number of input
items: accepted groups contribute their member count, groups touching an
already-processed id are skipped, and every unclaimed item becomes one
singleton. -/
theorem dedup_count_invariant
    (oracle : Nat → Except Unit (Option (List NewsGroup)))
    (bucket : List CatItem)
    (hb : (bucket.map (·.original_index)).Nodup)
    (hg : ∀ n gs, oracle n = Except.ok (some gs) →
      ∀ g ∈ gs, g.item_ids.Nodup) :
    sumOriginalCounts (deduplicate_category_items oracle bucket)
      = bucket.length := by
  unfold deduplicate_category_items
  rcases hfv : firstValidGroups oracle [0, 1, 2] with _ | groups
  · exact sumOriginalCounts_singletons bucket
  · dsimp only
    rcases hpg : processGroups bucket groups [] with _ | ⟨out, final⟩
    · exact sumOriginalCounts_singletons bucket
    · dsimp only
      obtain ⟨n, _, hfn⟩ := firstValidGroups_mem oracle [0, 1, 2] groups hfv
      have hgnd := hg n groups hfn
      obtain ⟨hfnd, hfsub, hsum⟩ := processGroups_spec bucket groups [] out
        final hgnd List.nodup_nil (by intro id h; cases h) hpg
      rw [sumOriginalCounts_append,
        sumOriginalCounts_singletons
          (bucket.filter fun ci => !(final.contains ci.original_index))]
      have hcl := claimed_length bucket final hb hfnd hfsub
      have hsplit := length_filter_not_add
        (fun ci => final.contains ci.original_index) bucket
      simp only [List.length_nil] at hsum
      omega

/-- Concrete item dict used by deduplication theorems. -/
def wItem : ItemDict :=
  { title := "T", summary := "S", main_topic := "AI", source_urls := []
    key_points := ["k"], source_email_subject := "Subj"
    source_email_sender := "From", source_email_date := "D"
    source_account := "acct", original_email_id := "id-1" }

/-- Oracle whose single group repeats one member id. -/
def dupGroupOracle : Nat → Except Unit (Option (List NewsGroup)) := fun _ =>
  Except.ok (some [{ type := "duplicate", item_ids := [0, 0]
                     group_title := "G", group_summary := "GS" }])

/-- Counterexample for C3 as stated: a group whose member list repeats id
0 is accepted whole, so a one-item bucket reports a count total of 2. -/
theorem dedup_count_invariant_cex :
    sumOriginalCounts
        (deduplicate_category_items dupGroupOracle
          [{ item := wItem, original_index := 0 }]) = 2
    ∧ ([{ item := wItem, original_index := 0 }] : List CatItem).length = 1 :=
  ⟨by decide, rfl⟩

/-- Well-formed oracle groups for the C3 witness. -/
def wGroups : List NewsGroup :=
  [{ type := "similar", item_ids := [0, 1], group_title := "G"
     group_summary := "GS" }]

/-- Oracle returning `wGroups` on every attempt. -/
def wDedupOracle : Nat → Except Unit (Option (List NewsGroup)) := fun _ =>
  Except.ok (some wGroups)

/-- Witness for `dedup_count_invariant` on a two-item bucket merged into
one group. -/
theorem dedup_count_invariant_witness :
    sumOriginalCounts
        (deduplicate_category_items wDedupOracle
          [{ item := wItem, original_index := 0 },
           { item := wItem, original_index := 1 }])
      = ([{ item := wItem, original_index := 0 },
          { item := wItem, original_index := 1 }] : List CatItem).length := by
  refine dedup_count_invariant wDedupOracle _ (by decide) ?_
  intro n gs hgs g hgmem
  injection hgs with h1
  injection h1 with h2
  subst h2
  revert hgmem
  revert g
  decide

/-- When every attempt for a category fails, no usable groups appear. -/
lemma firstValidGroups_none (f : Nat → Except Unit (Option (List NewsGroup)))
    (hf : ∀ n gs, f n ≠ Except.ok (some gs)) :
    ∀ attempts, firstValidGroups f attempts = none := by
  intro attempts
  induction attempts with
  | nil => rfl
  | cons n rest ih =>
      unfold firstValidGroups
      rcases hfn : f n with e | r
      · exact ih
      · rcases r with _ | gs
        · exact ih
        · exact absurd hfn (hf n gs)

/-- A bucket whose oracle never yields groups degrades to singletons. -/
lemma dedup_all_attempts_fail
    (oracle : Nat → Except Unit (Option (List NewsGroup)))
    (bucket : List CatItem)
    (hfail : ∀ n gs, oracle n ≠ Except.ok (some gs)) :
    deduplicate_category_items oracle bucket = bucket.map singletonOf := by
  unfold deduplicate_category_items
  rw [firstValidGroups_none oracle hfail [0, 1, 2]]

/-- Pointwise-equal functions give equal flat maps. -/
lemma flatMap_congr_aux {α β : Type} (l : List α) (f g : α → List β)
    (h : ∀ a ∈ l, f a = g a) : l.flatMap f = l.flatMap g := by
  induction l with
  | nil => rfl
  | cons a t ih =>
      simp only [List.flatMap_cons]
      rw [h a (List.mem_cons_self a t),
        ih fun b hb => h b (List.mem_cons_of_mem a hb)]

/-- C4: if every attempt for category `X` fails, that bucket degrades to
one singleton per item (`group_type = "unique"`, `original_count = 1`,
`original_index` removed) while the aggregate output keeps every other
category's deduplicated result untouched, for every completion order;
likewise a bucket whose group assembly raises degrades to singletons. -/
theorem dedup_failure_isolated (oracle1 oracle2 : DedupOracle) (X : String)
    (news_items : List ItemDict) (completion : List (String × List CatItem))
    (hfail : ∀ n gs, oracle1 X n ≠ Except.ok (some gs))
    (hagree : ∀ c, c ≠ X → oracle1 c = oracle2 c)
    (hlen : 1 < news_items.length)
    (hne : (nonEmptyBuckets news_items).isEmpty = false) :
    deduplicate_and_aggregate_news true oracle1 news_items completion
      = completion.flatMap (fun p =>
          if p.1 = X then p.2.map singletonOf
          else deduplicate_category_items (oracle2 p.1) p.2)
    ∧ (∀ bucket, deduplicate_category_items (oracle1 X) bucket
        = bucket.map singletonOf)
    ∧ (∀ (oracle3 : Nat → Except Unit (Option (List NewsGroup)))
        (bucket : List CatItem) (groups : List NewsGroup),
        firstValidGroups oracle3 [0, 1, 2] = some groups →
        processGroups bucket groups [] = none →
        deduplicate_category_items oracle3 bucket = bucket.map singletonOf)
    ∧ (∀ ci, (singletonOf ci).group_type = some "unique"
        ∧ (singletonOf ci).original_count = some 1
        ∧ (singletonOf ci).title = ci.item.title) := by
  refine ⟨?_, fun bucket => dedup_all_attempts_fail (oracle1 X) bucket hfail,
    fun oracle3 bucket groups h1 h2 => by
      simp only [deduplicate_category_items, h1, h2],
    fun ci => ⟨rfl, rfl, rfl⟩⟩
  unfold deduplicate_and_aggregate_news
  rw [if_neg (by omega)]
  simp only [Bool.not_true, Bool.false_eq_true, if_false, hne]
  refine flatMap_congr_aux completion _ _ ?_
  intro p _
  by_cases hx : p.1 = X
  · rw [if_pos hx, hx]
    exact dedup_all_attempts_fail (oracle1 X) p.2 hfail
  · rw [if_neg hx, hagree p.1 hx]

/-- Items used by the C4 witness: two items in different categories. -/
def wItemAI : ItemDict := { wItem with email_primary_category := some "AI" }

/-- Second C4 witness item, categorized as Stocks. -/
def wItemStocks : ItemDict :=
  { wItem with title := "T2", email_primary_category := some "Stocks" }

/-- Oracle failing exactly on the AI category. -/
def wFailAIOracle : DedupOracle := fun c _ =>
  if c = "AI" then Except.error () else Except.ok (some [])

/-- Witness for `dedup_failure_isolated`: AI fails while Stocks keeps its
(empty-groups) deduplication result. -/
theorem dedup_failure_isolated_witness :
    deduplicate_and_aggregate_news true wFailAIOracle [wItemAI, wItemStocks]
        [("Stocks", [{ item := wItemStocks, original_index := 1 }]),
         ("AI", [{ item := wItemAI, original_index := 0 }])]
      = [("Stocks", [{ item := wItemStocks, original_index := 1 }]),
         ("AI", [{ item := wItemAI, original_index := 0 }])].flatMap
          (fun p =>
            if p.1 = "AI" then p.2.map singletonOf
            else deduplicate_category_items (wFailAIOracle p.1) p.2)
    ∧ (∀ bucket, deduplicate_category_items (wFailAIOracle "AI") bucket
        = bucket.map singletonOf)
    ∧ (∀ (oracle3 : Nat → Except Unit (Option (List NewsGroup)))
        (bucket : List CatItem) (groups : List NewsGroup),
        firstValidGroups oracle3 [0, 1, 2] = some groups →
        processGroups bucket groups [] = none →
        deduplicate_category_items oracle3 bucket = bucket.map singletonOf)
    ∧ (∀ ci, (singletonOf ci).group_type = some "unique"
        ∧ (singletonOf ci).original_count = some 1
        ∧ (singletonOf ci).title = ci.item.title) :=
  dedup_failure_isolated wFailAIOracle wFailAIOracle "AI"
    [wItemAI, wItemStocks]
    [("Stocks", [{ item := wItemStocks, original_index := 1 }]),
     ("AI", [{ item := wItemAI, original_index := 0 }])]
    (fun n gs h => by simp [wFailAIOracle] at h)
    (fun c hc => rfl) (by decide) (by decide)

/-- C10: batches of at most one item pass through
`deduplicate_and_aggregate_news` unchanged, independent of the oracle,
both flags and any completion order. -/
theorem dedup_identity_on_small (enable_parallel : Bool)
    (oracle : DedupOracle) (news_items : List ItemDict)
    (completion : List (String × List CatItem))
    (h : news_items.length ≤ 1) :
    deduplicate_and_aggregate_news enable_parallel oracle news_items
      completion = news_items := by
  unfold deduplicate_and_aggregate_news
  rw [if_pos h]

/-- Witness for `dedup_identity_on_small` on a single extracted item. -/
theorem dedup_identity_on_small_witness :
    deduplicate_and_aggregate_news true wFailAIOracle [wItem] [] = [wItem] :=
  dedup_identity_on_small true wFailAIOracle [wItem] [] (by decide)

/-- `html.escape` expansion of one character (quote=True: also both quote
characters; 39 is the code point of the single quote). -/
def escapeChar (c : Char) : List Char :=
  if c = '&' then "&amp;".toList
  else if c = '<' then "&lt;".toList
  else if c = '>' then "&gt;".toList
  else if c = '"' then "&quot;".toList
  else if c.toNat = 39 then "&#x27;".toList
  else [c]

/-- `sanitize_content` (src/utils/newsletter/sanitization.py):
`html.escape` on the whole string. -/
def sanitize_content (content : String) : String :=
  String.mk (content.toList.flatMap escapeChar)

/-- `sanitize_item` (src/utils/newsletter/sanitization.py) restricted to
the string keys its call sites pass (`title`, `summary`, `main_topic`):
returns a copy with the selected keys HTML-escaped. -/
def sanitize_item (it : ItemDict) (keys : List String) : ItemDict :=
  { it with
      title := if "title" ∈ keys then sanitize_content it.title else it.title
      summary :=
        if "summary" ∈ keys then sanitize_content it.summary else it.summary
      main_topic :=
        if "main_topic" ∈ keys then sanitize_content it.main_topic
        else it.main_topic }

/-- Pydantic `NewsSubcategory` (src/utils/models.py). -/
structure NewsSubcategory where
  subcategory_name : String
  item_ids : List Int
  intro_text : String
  deriving Repr, DecidableEq

/-- Pydantic `NewsCategory` (src/utils/models.py). -/
structure NewsCategory where
  category_name : String
  subcategories : List NewsSubcategory
  deriving Repr, DecidableEq

/-- Pydantic `NewsletterStructure` (src/utils/models.py). -/
structure NewsletterStructure where
  newsletter_title : String
  categories : List NewsCategory
  executive_summary : String
  deriving Repr, DecidableEq

/-- `NewsletterConfig` (src/utils/newsletter/categorization.py). -/
structure NewsletterConfig where
  max_items_per_category : Nat := 10
  enable_executive_summary : Bool := true
  fallback_to_keywords : Bool := true
  custom_categories : List String := []
  theme : String := "light"
  deriving Repr, DecidableEq

/-- `NewsletterMetrics` (src/utils/newsletter/categorization.py);
`generation_time` is the elapsed `perf_counter` difference, passed in as a
rational. -/
structure NewsletterMetrics where
  total_stories : Nat
  stories_by_category : List (String × Nat)
  ai_categorized_count : Nat
  fallback_categorized_count : Nat
  generation_time : ℚ
  deriving Repr, DecidableEq

/-- A subcategory dict of the assembled newsletter content; the gate only
ever asks whether the "items" key is present, hence the `Option`. -/
structure ContentSubcat where
  name : String
  intro : String
  items : Option (List ItemDict)
  deriving Repr, DecidableEq

/-- A category dict of the assembled newsletter content; "name" and
"subcategories" may in principle be absent, which is what the validation
gate checks. -/
structure ContentCategory where
  name : Option String
  subcategories : Option (List ContentSubcat)
  deriving Repr, DecidableEq

/-- The `newsletter_content` dict; `none` models an absent key. -/
structure NewsletterContent where
  title : String
  executive_summary : Option String := none
  categories : Option (List ContentCategory) := none
  generated_at : Option String := none
  display_date : Option String := none
  generated_time : Option String := none
  metrics : Option NewsletterMetrics := none
  theme : Option String := none
  deriving Repr, DecidableEq

/-- `validate_newsletter_structure` (src/utils/newsletter/categorization.py
lines 147-158): "categories" present, every category with "name" and
"subcategories", every subcategory with "items".  An empty categories
list passes. -/
def validate_newsletter_structure (c : NewsletterContent) : Bool :=
  match c.categories with
  | none => false
  | some cats =>
    cats.all fun cat =>
      cat.name.isSome &&
        match cat.subcategories with
        | none => false
        | some subs => subs.all fun sub => sub.items.isSome

/-- Dict-style upsert used by `collect_metrics` for
`stories_by_category[category["name"]] = total`. -/
def upsertCount (l : List (String × Nat)) (k : String) (v : Nat) :
    List (String × Nat) :=
  if l.any fun p => p.1 == k then
    l.map fun p => if p.1 == k then (k, v) else p
  else l ++ [(k, v)]

/-- `collect_metrics` (src/utils/newsletter/categorization.py lines
119-144).  It runs only after the validation gate, so the `name` and
`items` keys it indexes are present; `getD` supplies the unreachable
defaults. -/
def collect_metrics (c : NewsletterContent) (ai_categorized_count : Nat)
    (fallback_categorized_count : Nat) (generation_time : ℚ) :
    NewsletterMetrics :=
  let step := fun (acc : List (String × Nat) × Nat) (cat : ContentCategory) =>
    let category_total :=
      (((cat.subcategories.getD []).map fun sub =>
        (sub.items.getD []).length)).sum
    (upsertCount acc.1 (cat.name.getD "") category_total,
      acc.2 + category_total)
  let folded := (c.categories.getD []).foldl step ([], 0)
  { total_stories := folded.2
    stories_by_category := folded.1
    ai_categorized_count := ai_categorized_count
    fallback_categorized_count := fallback_categorized_count
    generation_time := generation_time }

/-- `DEFAULT_FALLBACK_CATEGORIES` (src/utils/newsletter/fallback.py), in
dict insertion order. -/
def DEFAULT_FALLBACK_CATEGORIES : List (String × List String) :=
  [("AI", ["ai", "artificial intelligence", "machine learning", "llm",
           "chatbot"]),
   ("Economy", ["economy", "economic", "gdp", "inflation", "market",
                "financial"]),
   ("Stocks", ["stock", "shares", "trading", "equity", "nasdaq", "sp500",
               "dow"]),
   ("Private Equity", ["private equity", "pe", "buyout", "acquisition"]),
   ("Politics", ["politics", "political", "government", "election",
                 "policy", "congress"]),
   ("Technology", ["technology", "tech", "software", "hardware",
                   "startup"])]

/-- Keys of the fallback `categories` dict: the keyword table plus
"Other". -/
def fallbackCategoryKeys : List String :=
  DEFAULT_FALLBACK_CATEGORIES.map (·.1) ++ ["Other"]

/-- Python `str.lower()`, character by character (ASCII range; the
keyword tables are all ASCII). -/
def pyLower (s : String) : String := String.mk (s.toList.map Char.toLower)

/-- Python substring test `needle in hay` on character lists. -/
def containsSub (needle : List Char) : List Char → Bool
  | [] => needle.isEmpty
  | c :: rest => needle.isPrefixOf (c :: rest) || containsSub needle rest

/-- Python `needle in hay` for strings. -/
def strContains (hay needle : String) : Bool :=
  containsSub needle.toList hay.toList

/-- First keyword category whose table matches the lowered title or
summary (src/utils/newsletter/fallback.py lines 49-53). -/
def matchedCategory (title_lower summary_lower : String) : Option String :=
  DEFAULT_FALLBACK_CATEGORIES.findSome? fun p =>
    if p.2.any fun keyword =>
        strContains title_lower keyword || strContains summary_lower keyword
    then some p.1 else none

/-- The bucket `create_fallback_newsletter` places one (sanitized) item
into: a recognized `email_primary_category` wins outright; otherwise the
keyword tables decide, defaulting to "Other". -/
def fallbackBucketKey (sanitized_item : ItemDict) : String :=
  match sanitized_item.email_primary_category with
  | some email_category =>
    if email_category ≠ "" ∧ email_category ∈ fallbackCategoryKeys then
      email_category
    else
      (matchedCategory (pyLower sanitized_item.title)
        (pyLower sanitized_item.summary)).getD "Other"
  | none =>
    (matchedCategory (pyLower sanitized_item.title)
      (pyLower sanitized_item.summary)).getD "Other"

/-- `create_fallback_newsletter` (src/utils/newsletter/fallback.py lines
24-88); `now_date` stands for `datetime.now().strftime("%B %d, %Y")`. -/
def create_fallback_newsletter (now_date : String)
    (deduplicated_items : List ItemDict) : NewsletterContent :=
  let placed := deduplicated_items.map fun item =>
    let sanitized_item := sanitize_item item ["title", "summary"]
    (fallbackBucketKey sanitized_item, sanitized_item)
  { title := "Daily News Digest - " ++ now_date
    categories := some <| fallbackCategoryKeys.filterMap fun category_name =>
      let items := (placed.filter fun p => p.1 == category_name).map (·.2)
      if items.isEmpty then none
      else
        some { name := some category_name
               subcategories := some
                 [{ name := "Top Stories"
                    intro := "Latest developments in " ++
                      (pyLower category_name) ++ ":"
                    items := some items }] } }

/-- The wall-clock strings `categorize_and_generate_newsletter` reads:
`time.strftime("%B %d, %Y")`, `datetime.now().strftime(...)` variants. -/
structure DateInfo where
  current_date : String
  display_date : String
  generated_at : String
  generated_time : String
  deriving Repr, DecidableEq

/-- Python list indexing `l[i]` (negative indices count from the end);
`none` is an `IndexError`. -/
def pyIndex {α : Type} (l : List α) (i : Int) : Option α :=
  if i < 0 then
    if 0 ≤ (l.length : Int) + i then l.get? ((l.length : Int) + i).toNat
    else none
  else l.get? i.toNat

/-- The per-subcategory resolution loop (categorization.py lines 237-246):
walk the (already truncated) id list, skip ids `≥ len(deduplicated_items)`,
index the rest Python-style and sanitize; `none` when indexing raises. -/
def resolveIds (deduplicated_items : List ItemDict) :
    List Int → Option (List ItemDict)
  | [] => some []
  | item_id :: rest =>
    if item_id < (deduplicated_items.length : Int) then
      match pyIndex deduplicated_items item_id with
      | none => none
      | some it =>
        match resolveIds deduplicated_items rest with
        | none => none
        | some l => some (sanitize_item it ["title", "summary"] :: l)
    else resolveIds deduplicated_items rest

/-- One assembled subcategory dict (categorization.py lines 236-253);
`cleanHtml` stands for `bleach.clean` from `sanitize_html_content`. -/
def assembleSubcat (cleanHtml : String → String) (max_items : Nat)
    (deduplicated_items : List ItemDict) (sub : NewsSubcategory) :
    Except Unit ContentSubcat :=
  match resolveIds deduplicated_items (sub.item_ids.take max_items) with
  | none => Except.error ()
  | some items =>
    Except.ok { name := sub.subcategory_name
                intro := cleanHtml sub.intro_text
                items := some items }

/-- All-or-nothing traversal for exception-propagating loops. -/
def exceptMapAll {α β : Type} (f : α → Except Unit β) :
    List α → Except Unit (List β)
  | [] => Except.ok []
  | a :: rest =>
    match f a with
    | .error e => Except.error e
    | .ok b =>
      match exceptMapAll f rest with
      | .error e => Except.error e
      | .ok bs => Except.ok (b :: bs)

/-- One assembled category dict (categorization.py lines 234-260). -/
def assembleCategory (cleanHtml : String → String) (max_items : Nat)
    (deduplicated_items : List ItemDict) (cat : NewsCategory) :
    Except Unit ContentCategory :=
  match exceptMapAll (assembleSubcat cleanHtml max_items deduplicated_items)
      cat.subcategories with
  | .error e => Except.error e
  | .ok subs =>
    Except.ok { name := some cat.category_name, subcategories := some subs }

/-- The date placeholders replaced in the oracle's title
(categorization.py lines 212-222). -/
def DATE_PLACEHOLDERS : List String :=
  ["[Date]", "[date]", "\x7bDate\x7d", "\x7bdate\x7d",
   "\x7b\x7bDate\x7d\x7d", "\x7b\x7bdate\x7d\x7d", "<<Date>>"]

/-- Replace every date placeholder occurring in the title. -/
def replaceDatePlaceholders (title display_date : String) : String :=
  DATE_PLACEHOLDERS.foldl
    (fun t placeholder =>
      if strContains t placeholder then t.replace placeholder display_date
      else t)
    title

/-- The success-path assembly of `categorize_and_generate_newsletter`
(categorization.py lines 204-262). -/
def assembleContent (cleanHtml : String → String) (dates : DateInfo)
    (config : NewsletterConfig) (deduplicated_items : List ItemDict)
    (s : NewsletterStructure) : Except Unit NewsletterContent :=
  let title0 :=
    if s.newsletter_title = "" then "Daily News Digest - " ++ dates.current_date
    else s.newsletter_title
  let title := replaceDatePlaceholders title0 dates.display_date
  match exceptMapAll
      (assembleCategory cleanHtml config.max_items_per_category
        deduplicated_items) s.categories with
  | .error e => Except.error e
  | .ok cats =>
    Except.ok
      { title := title
        executive_summary := some
          (if config.enable_executive_summary then
            cleanHtml s.executive_summary
          else "")
        categories := some cats }

/-- The `retry(max_attempts=3)` wrapper around `categorize_with_gemini`:
first successful attempt wins, the last error is re-raised. -/
def firstOkE {α : Type} (f : Nat → Except Unit α) : List Nat → Except Unit α
  | [] => Except.error ()
  | n :: rest =>
    match f n with
    | .ok a => Except.ok a
    | .error _ => firstOkE f rest

/-- `setdefault("executive_summary", "")` plus the `generated_at`,
`display_date` and `generated_time` keys (categorization.py lines
271-276). -/
def addGeneratedFields (dates : DateInfo) (c : NewsletterContent) :
    NewsletterContent :=
  { c with
      executive_summary := some (c.executive_summary.getD "")
      generated_at := some dates.generated_at
      display_date := some dates.display_date
      generated_time := some dates.generated_time }

/-- The tail of `categorize_and_generate_newsletter` (lines 269-298): add
the generated fields, run the validation gate (raising on failure), then
attach metrics and theme. -/
def finalizeContent (dates : DateInfo) (config : NewsletterConfig)
    (generation_time : ℚ) (ai_categorized_count fallback_categorized_count : Nat)
    (c : NewsletterContent) : Except Unit NewsletterContent :=
  let c2 := addGeneratedFields dates c
  if validate_newsletter_structure c2 then
    Except.ok
      { c2 with
          metrics := some (collect_metrics c2 ai_categorized_count
            fallback_categorized_count generation_time)
          theme := some config.theme }
  else Except.error ()

/-- `categorize_and_generate_newsletter`
(src/utils/newsletter/categorization.py lines 173-298). -/
def categorize_and_generate_newsletter (cleanHtml : String → String)
    (oracle : Nat → Except Unit NewsletterStructure) (dates : DateInfo)
    (generation_time : ℚ) (config : NewsletterConfig)
    (deduplicated_items : List ItemDict) : Except Unit NewsletterContent :=
  match firstOkE oracle [0, 1, 2] with
  | .error _ =>
    if !config.fallback_to_keywords then Except.error ()
    else
      finalizeContent dates config generation_time 0 deduplicated_items.length
        (create_fallback_newsletter dates.current_date deduplicated_items)
  | .ok newsletter_structure =>
    match assembleContent cleanHtml dates config deduplicated_items
        newsletter_structure with
    | .error e => Except.error e
    | .ok c =>
      finalizeContent dates config generation_time deduplicated_items.length 0 c

/-- The content that reaches the validation gate, if any: the assembled
success-path dict, or the keyword-fallback dict, each with the generated
fields added. -/
def assembledOpt (cleanHtml : String → String)
    (oracle : Nat → Except Unit NewsletterStructure) (dates : DateInfo)
    (config : NewsletterConfig) (deduplicated_items : List ItemDict) :
    Option NewsletterContent :=
  match firstOkE oracle [0, 1, 2] with
  | .error _ =>
    if config.fallback_to_keywords then
      some (addGeneratedFields dates
        (create_fallback_newsletter dates.current_date deduplicated_items))
    else none
  | .ok s =>
    match assembleContent cleanHtml dates config deduplicated_items s with
    | .ok c => some (addGeneratedFields dates c)
    | .error _ => none

/-- Resolution of the per-claim (spec-side) reading with truncation first:
drop the id list to the maximum, skip ids at or beyond the item count,
sanitize the included items. -/
def specTruncatedItems (max_items : Nat) (deduplicated_items : List ItemDict)
    (ids : List Int) : List ItemDict :=
  (ids.take max_items).filterMap fun id =>
    if 0 ≤ id then
      (deduplicated_items.get? id.toNat).map fun it =>
        sanitize_item it ["title", "summary"]
    else none

/-- C7's original wording of the item resolution: resolve all ids ignoring
out-of-range ones, then truncate the resolved list. -/
def claimedResolvedItems (max_items : Nat)
    (deduplicated_items : List ItemDict) (ids : List Int) : List ItemDict :=
  (ids.filterMap fun id =>
    if 0 ≤ id then
      (deduplicated_items.get? id.toNat).map fun it =>
        sanitize_item it ["title", "summary"]
    else none).take max_items

/-- On non-negative ids the resolution loop is total and computes the
truncate-first list. -/
lemma resolveIds_eq_spec (deduplicated_items : List ItemDict) :
    ∀ ids : List Int, (∀ id ∈ ids, 0 ≤ id) →
      resolveIds deduplicated_items ids
        = some (ids.filterMap fun id =>
            if 0 ≤ id then
              (deduplicated_items.get? id.toNat).map fun it =>
                sanitize_item it ["title", "summary"]
            else none) := by
  intro ids
  induction ids with
  | nil => intro _; rfl
  | cons id rest ih =>
      intro h
      have h0 : 0 ≤ id := h id (List.mem_cons_self id rest)
      have hrest := ih fun i hi => h i (List.mem_cons_of_mem id hi)
      unfold resolveIds
      by_cases hlt : id < (deduplicated_items.length : Int)
      · have hnat : id.toNat < deduplicated_items.length := by omega
        have hget := List.get?_eq_get (l := deduplicated_items) hnat
        have hpy : pyIndex deduplicated_items id
            = some (deduplicated_items.get ⟨id.toNat, hnat⟩) := by
          unfold pyIndex
          rw [if_neg (show ¬ id < 0 by omega), hget]
        rw [if_pos hlt]
        simp only [hpy, hrest]
        simp only [List.filterMap_cons, if_pos h0, hget, Option.map_some']
      · have hge : deduplicated_items.length ≤ id.toNat := by omega
        have hget : deduplicated_items.get? id.toNat = none :=
          List.get?_eq_none.mpr hge
        rw [if_neg hlt, hrest]
        simp only [List.filterMap_cons, if_pos h0, hget, Option.map_none']

/-- Shared form of the subcategory assembly characterization. -/
lemma assembleSubcat_eq_spec (cleanHtml : String → String)
    (max_items : Nat) (deduplicated_items : List ItemDict)
    (sub : NewsSubcategory) (h : ∀ id ∈ sub.item_ids, 0 ≤ id) :
    assembleSubcat cleanHtml max_items deduplicated_items sub
      = Except.ok
          { name := sub.subcategory_name
            intro := cleanHtml sub.intro_text
            items := some
              (specTruncatedItems max_items deduplicated_items
                sub.item_ids) } := by
  unfold assembleSubcat specTruncatedItems
  rw [resolveIds_eq_spec deduplicated_items (sub.item_ids.take max_items)
    fun id hid => h id (List.mem_of_mem_take hid)]

/-- C7 (amended): for subcategories whose ids are non-negative, assembly
truncates the id list to `max_items_per_category` first, then resolves,
dropping ids at or beyond the number of deduplicated items; every
included item has its title and summary HTML-escaped, and the intro text
is passed through the HTML sanitizer. -/
theorem assembly_truncates_ids_before_resolving (cleanHtml : String → String)
    (max_items : Nat) (deduplicated_items : List ItemDict)
    (sub : NewsSubcategory) (h : ∀ id ∈ sub.item_ids, 0 ≤ id) :
    assembleSubcat cleanHtml max_items deduplicated_items sub
      = Except.ok
          { name := sub.subcategory_name
            intro := cleanHtml sub.intro_text
            items := some
              (specTruncatedItems max_items deduplicated_items
                sub.item_ids) } :=
  assembleSubcat_eq_spec cleanHtml max_items deduplicated_items sub h

/-- Witness for `assembly_truncates_ids_before_resolving`. -/
theorem assembly_truncates_ids_before_resolving_witness :
    assembleSubcat (fun s => s) 10 [wItem]
        { subcategory_name := "Top", item_ids := [0], intro_text := "i" }
      = Except.ok
          { name := "Top"
            intro := "i"
            items := some (specTruncatedItems 10 [wItem] [0]) } :=
  assembly_truncates_ids_before_resolving (fun s => s) 10 [wItem]
    { subcategory_name := "Top", item_ids := [0], intro_text := "i" }
    (by decide)

/-- Counterexample for C7 as stated: with one deduplicated item, the ids
`[5, 0]` and a maximum of 1, the code truncates to `[5]` and resolves
nothing, while resolving first and truncating afterwards would keep the
item. -/
theorem assembly_truncation_order_cex :
    assembleSubcat (fun s => s) 1 [wItem]
        { subcategory_name := "Top", item_ids := [5, 0], intro_text := "i" }
      = Except.ok { name := "Top", intro := "i", items := some [] }
    ∧ claimedResolvedItems 1 [wItem] [5, 0]
        = [sanitize_item wItem ["title", "summary"]]
    ∧ ([] : List ItemDict) ≠ [sanitize_item wItem ["title", "summary"]] :=
  ⟨rfl, by decide, by decide⟩

/-- Python indexing succeeds on in-range non-negative indices. -/
lemma exceptMapAll_ok {α β : Type} (f : α → Except Unit β) :
    ∀ l : List α, (∀ a ∈ l, ∃ b, f a = Except.ok b) →
      ∃ bs, exceptMapAll f l = Except.ok bs := by
  intro l
  induction l with
  | nil => intro _; exact ⟨[], rfl⟩
  | cons a t ih =>
      intro h
      obtain ⟨b, hb⟩ := h a (List.mem_cons_self a t)
      obtain ⟨bs, hbs⟩ := ih fun x hx => h x (List.mem_cons_of_mem a hx)
      refine ⟨b :: bs, ?_⟩
      unfold exceptMapAll
      rw [hb, hbs]

/-- The success path assembles without raising when every id of the
oracle structure is non-negative. -/
lemma assembleContent_ok (cleanHtml : String → String) (dates : DateInfo)
    (config : NewsletterConfig) (deduplicated_items : List ItemDict)
    (s : NewsletterStructure)
    (h : ∀ cat ∈ s.categories, ∀ sub ∈ cat.subcategories,
      ∀ id ∈ sub.item_ids, 0 ≤ id) :
    ∃ c, assembleContent cleanHtml dates config deduplicated_items s
      = Except.ok c := by
  have hcats : ∃ cats, exceptMapAll
      (assembleCategory cleanHtml config.max_items_per_category
        deduplicated_items) s.categories = Except.ok cats := by
    refine exceptMapAll_ok _ s.categories fun cat hcat => ?_
    have hsubs : ∃ subs, exceptMapAll
        (assembleSubcat cleanHtml config.max_items_per_category
          deduplicated_items) cat.subcategories = Except.ok subs := by
      refine exceptMapAll_ok _ cat.subcategories fun sub hsub => ?_
      exact ⟨_, assembleSubcat_eq_spec cleanHtml
        config.max_items_per_category deduplicated_items sub
        (h cat hcat sub hsub)⟩
    obtain ⟨subs, hsubs⟩ := hsubs
    refine ⟨{ name := some cat.category_name
              subcategories := some subs }, ?_⟩
    unfold assembleCategory
    rw [hsubs]
  obtain ⟨cats, hcats⟩ := hcats
  unfold assembleContent
  rw [hcats]
  exact ⟨_, rfl⟩

/-- C6 (amended): the run raises exactly when the oracle exhausts all
retries with the keyword fallback disabled, or the content reaching the
validation gate fails it; the gate accepts an empty categories list and
only requires the categories key, a name and subcategories key per
category, and an items key per subcategory.  (Ids are assumed
non-negative so that assembly cannot raise an `IndexError` first.) -/
theorem newsletter_raises_iff_gate_fails (cleanHtml : String → String)
    (oracle : Nat → Except Unit NewsletterStructure) (dates : DateInfo)
    (generation_time : ℚ) (config : NewsletterConfig)
    (deduplicated_items : List ItemDict)
    (hids : ∀ s, firstOkE oracle [0, 1, 2] = Except.ok s →
      ∀ cat ∈ s.categories, ∀ sub ∈ cat.subcategories,
        ∀ id ∈ sub.item_ids, 0 ≤ id) :
    (categorize_and_generate_newsletter cleanHtml oracle dates
        generation_time config deduplicated_items = Except.error ())
      ↔ ((firstOkE oracle [0, 1, 2] = Except.error ())
          ∧ config.fallback_to_keywords = false)
        ∨ (∃ c, assembledOpt cleanHtml oracle dates config deduplicated_items
              = some c
            ∧ validate_newsletter_structure c = false) := by
  unfold categorize_and_generate_newsletter assembledOpt
  rcases hfo : firstOkE oracle [0, 1, 2] with e | s
  · cases e
    dsimp only
    by_cases hfb : config.fallback_to_keywords = true
    · simp only [hfb, Bool.not_true, Bool.false_eq_true, if_false, if_true]
      unfold finalizeContent
      by_cases hval : validate_newsletter_structure
          (addGeneratedFields dates
            (create_fallback_newsletter dates.current_date
              deduplicated_items)) = true
      · simp [hval, hfb]
      · have hval' : validate_newsletter_structure
            (addGeneratedFields dates
              (create_fallback_newsletter dates.current_date
                deduplicated_items)) = false := by
          simpa using hval
        simp [hval', hfb]
    · have hfb' : config.fallback_to_keywords = false := by simpa using hfb
      simp [hfb']
  · dsimp only
    obtain ⟨c, hc⟩ := assembleContent_ok cleanHtml dates config
      deduplicated_items s (hids s hfo)
    rw [hc]
    dsimp only
    unfold finalizeContent
    by_cases hval : validate_newsletter_structure
        (addGeneratedFields dates c) = true
    · simp [hval]
    · have hval' : validate_newsletter_structure
          (addGeneratedFields dates c) = false := by simpa using hval
      simp [hval']

/-- Concrete clock strings for the newsletter theorems. -/
def wDates : DateInfo :=
  { current_date := "January 01, 2026"
    display_date := "Thursday, January 01, 2026"
    generated_at := "Thursday, January 01, 2026 10:00:00"
    generated_time := "10:00:00" }

/-- Concrete oracle structure with one category and one subcategory. -/
def wStructure : NewsletterStructure :=
  { newsletter_title := "Daily"
    categories :=
      [{ category_name := "AI"
         subcategories :=
           [{ subcategory_name := "Top", item_ids := [0]
              intro_text := "intro" }] }]
    executive_summary := "E" }

/-- Oracle returning `wStructure` on every attempt. -/
def wNewsletterOracle : Nat → Except Unit NewsletterStructure := fun _ =>
  Except.ok wStructure

/-- Witness for `newsletter_raises_iff_gate_fails` at a concrete input. -/
theorem newsletter_raises_iff_gate_fails_witness :
    (categorize_and_generate_newsletter (fun s => s) wNewsletterOracle wDates
        0 {} [wItem] = Except.error ())
      ↔ ((firstOkE wNewsletterOracle [0, 1, 2] = Except.error ())
          ∧ NewsletterConfig.fallback_to_keywords {} = false)
        ∨ (∃ c, assembledOpt (fun s => s) wNewsletterOracle wDates {} [wItem]
              = some c
            ∧ validate_newsletter_structure c = false) :=
  newsletter_raises_iff_gate_fails (fun s => s) wNewsletterOracle wDates 0 {}
    [wItem]
    (by
      intro s h
      have h2 : (Except.ok wStructure : Except Unit NewsletterStructure)
          = Except.ok s := h
      injection h2 with h3
      subst h3
      decide)

/-- Oracle structure with an empty categories list. -/
def emptyCatsStructure : NewsletterStructure :=
  { newsletter_title := "T", categories := [], executive_summary := "E" }

/-- Counterexample for C6 as stated: a run whose assembled structure has
an empty categories list passes the gate and succeeds, so the gate does
not require a non-empty categories list. -/
theorem newsletter_gate_accepts_empty_categories_cex :
    categorize_and_generate_newsletter (fun s => s)
        (fun _ => Except.ok emptyCatsStructure) wDates 0 {} [wItem]
      ≠ Except.error ()
    ∧ (assembledOpt (fun s => s) (fun _ => Except.ok emptyCatsStructure)
          wDates {} [wItem]).map (fun c => c.categories) = some (some [])
    ∧ validate_newsletter_structure
        { title := "X", categories := some ([] : List ContentCategory) }
      = true :=
  ⟨fun h => Except.noConfusion h, rfl, rfl⟩

/-- Pointwise-equal functions give equal filter-maps. -/
lemma filterMap_congr_aux {α β : Type} (l : List α) (f g : α → Option β)
    (h : ∀ a ∈ l, f a = g a) : l.filterMap f = l.filterMap g := by
  induction l with
  | nil => rfl
  | cons a t ih =>
      simp only [List.filterMap_cons]
      rw [h a (List.mem_cons_self a t),
        ih fun b hb => h b (List.mem_cons_of_mem a hb)]

/-- The amended-claim reading of the fallback builder: each item goes to
the bucket `fallbackBucketKey` chooses (a recognized
`email_primary_category` first, then the keyword tables, then "Other"),
and each non-empty bucket yields exactly one "Top Stories" subcategory
with the fixed template intro holding all of its sanitized items in input
order. -/
def amendedFallbackNewsletter (now_date : String)
    (deduplicated_items : List ItemDict) : NewsletterContent :=
  { title := "Daily News Digest - " ++ now_date
    categories := some <| fallbackCategoryKeys.filterMap fun category_name =>
      let chosen := (deduplicated_items.map fun it =>
        sanitize_item it ["title", "summary"]).filter fun s =>
          fallbackBucketKey s == category_name
      if chosen.isEmpty then none
      else
        some { name := some category_name
               subcategories := some
                 [{ name := "Top Stories"
                    intro := "Latest developments in " ++
                      (pyLower category_name) ++ ":"
                    items := some chosen }] } }

/-- Selecting a bucket from the keyed pairs equals filtering the
sanitized items by their bucket key. -/
lemma placed_filter_eq (deduplicated_items : List ItemDict) (c : String) :
    ((deduplicated_items.map fun item =>
        let sanitized_item := sanitize_item item ["title", "summary"]
        (fallbackBucketKey sanitized_item, sanitized_item)).filter
          fun p => p.1 == c).map (·.2)
      = (deduplicated_items.map fun it =>
          sanitize_item it ["title", "summary"]).filter fun s =>
            fallbackBucketKey s == c := by
  induction deduplicated_items with
  | nil => rfl
  | cons a t ih =>
      simp only [List.map_cons, List.filter_cons]
      cases hk : fallbackBucketKey (sanitize_item a ["title", "summary"]) == c
      · simpa [hk] using ih
      · simpa [hk] using ih

/-- C8 (amended): the fallback newsletter places every item through
`fallbackBucketKey` (recognized `email_primary_category` first, keyword
tables in table order otherwise, "Other" when nothing matches), and each
category receiving at least one item contributes exactly one "Top
Stories" subcategory with the template intro and all of its items. -/
theorem fallback_placement_and_shape (now_date : String)
    (deduplicated_items : List ItemDict) :
    create_fallback_newsletter now_date deduplicated_items
      = amendedFallbackNewsletter now_date deduplicated_items := by
  unfold create_fallback_newsletter amendedFallbackNewsletter
  dsimp only
  have h : ∀ c ∈ fallbackCategoryKeys,
      (fun category_name =>
        let items := (((deduplicated_items.map fun item =>
          let sanitized_item := sanitize_item item ["title", "summary"]
          (fallbackBucketKey sanitized_item, sanitized_item)).filter
            fun p => p.1 == category_name).map (·.2))
        if items.isEmpty then none
        else
          some { name := some category_name
                 subcategories := some
                   [{ name := "Top Stories"
                      intro := "Latest developments in " ++
                        (pyLower category_name) ++ ":"
                      items := some items }] } : String → Option ContentCategory) c
      = (fun category_name =>
          let chosen := (deduplicated_items.map fun it =>
            sanitize_item it ["title", "summary"]).filter fun s =>
              fallbackBucketKey s == category_name
          if chosen.isEmpty then none
          else
            some { name := some category_name
                   subcategories := some
                     [{ name := "Top Stories"
                        intro := "Latest developments in " ++
                          (pyLower category_name) ++ ":"
                        items := some chosen }] }) c := by
    intro c _
    dsimp only
    rw [placed_filter_eq deduplicated_items c]
  rw [filterMap_congr_aux fallbackCategoryKeys _ _ h]

/-- The keyword-only placement that C8 as stated describes. -/
def claimed_fallback_category (it : ItemDict) : String :=
  (matchedCategory (pyLower it.title) (pyLower it.summary)).getD "Other"

/-- Item carrying an LLM category that disagrees with its keywords. -/
def cItemPrimaryAI : ItemDict :=
  { wItem with
      title := "Inflation watch"
      summary := "the economy is slowing"
      email_primary_category := some "AI" }

/-- Counterexample for C8 as stated: an item with `email_primary_category
= "AI"` whose text matches only the Economy keywords is placed in "AI",
not in the keyword-table category the claim prescribes. -/
theorem fallback_respects_primary_category_cex :
    ((create_fallback_newsletter "D" [cItemPrimaryAI]).categories.getD
        []).map (·.name) = [some "AI"]
    ∧ claimed_fallback_category cItemPrimaryAI = "Economy"
    ∧ ("AI" : String) ≠ "Economy" :=
  ⟨by decide, by decide, by decide⟩

/-- C9: the category/subcategory structure of the fallback newsletter is
a pure function of the item list; the ambient clock only enters the
title, so two runs on the same input agree on the whole categories
list. -/
theorem fallback_structure_deterministic (deduplicated_items : List ItemDict)
    (d1 d2 : String) :
    (create_fallback_newsletter d1 deduplicated_items).categories
      = (create_fallback_newsletter d2 deduplicated_items).categories := rfl

end NewsletterPipeline
